import Mathlib

/-!
Shallow embedding of the `codebot` dispatch engine (`src/main.py`) and
verification of the frozen specification claims.

Python strings are modelled as Lean `String`s; where the code uses Python
string primitives (`str.strip`, `str.split("\n", maxsplit=1)`, `str.split()`,
negative-index slicing, `str.rfind`) we implement those primitives over the
character list `String.data`, so that all definitions stay executable and
provable.
-/

namespace Codebot

/-! ### Python string primitives -/

def isWS (c : Char) : Bool := c.isWhitespace

/-- Right-strip whitespace, as the trailing part of Python `str.strip()`. -/
def stripRightChars (l : List Char) : List Char :=
  (l.reverse.dropWhile isWS).reverse

/-- Python `str.strip()` on a character list: drop whitespace at both ends. -/
def stripChars (l : List Char) : List Char :=
  (stripRightChars l).dropWhile isWS

/-- Python `text.strip()`. -/
def pyStrip (s : String) : String := ⟨stripChars s.data⟩

/-- Python `s.split("\n", maxsplit=1)`: the part before the first line break,
and the remainder after it when a line break exists. -/
def splitFirstNL : List Char → List Char × Option (List Char)
  | [] => ([], none)
  | c :: rest =>
    if c = '\n' then ([], some rest)
    else
      let p := splitFirstNL rest
      (c :: p.1, p.2)

/-- Helper for Python `str.split()` (split on whitespace runs, no empties). -/
def splitWSAux : List Char → List Char → List (List Char)
  | [], acc => if acc.isEmpty then [] else [acc.reverse]
  | c :: rest, acc =>
    if isWS c then
      if acc.isEmpty then splitWSAux rest []
      else acc.reverse :: splitWSAux rest []
    else splitWSAux rest (c :: acc)

/-- Python `s.split()`: whitespace-separated non-empty tokens. -/
def pySplitWS (l : List Char) : List (List Char) := splitWSAux l []

/-- Python `s.rfind(ch)`: index of the rightmost occurrence, `-1` if absent. -/
def pyRfind : List Char → Char → Int
  | [], _ => -1
  | c :: rest, t =>
    let r := pyRfind rest t
    if r ≥ 0 then r + 1
    else if c = t then 0 else -1

/-- Python `s[:k]` including negative-index semantics: a negative bound counts
from the end of the string (saturating at the start). -/
def pySliceTo (l : List Char) (k : Int) : List Char :=
  if k < 0 then l.take (l.length - (-k).toNat) else l.take k.toNat

/-- `beginsWith p l` holds when `p` is a prefix of `l`
(Python `str.startswith`). -/
def beginsWith : List Char → List Char → Bool
  | [], _ => true
  | _ :: _, [] => false
  | p :: ps, c :: cs => p == c && beginsWith ps cs

/-! ### Data model (from `src/main.py`) -/

structure Viewer where
  blocked_by : Bool
  blocking : Bool
  blocking_by_list : Bool
  muted : Bool
  muted_by_list : Bool
deriving DecidableEq

structure Author where
  handle : String
  viewer : Viewer
deriving DecidableEq

structure ReplyRef where
  root_uri : String
  parent_uri : String
deriving DecidableEq

structure NoteRecord where
  text : String
  reply : Option ReplyRef
deriving DecidableEq

structure Note where
  uri : String
  cid : String
  author : Author
  reason : String
  is_read : Bool
  record : NoteRecord
deriving DecidableEq

/-- A response dict `{"text": ..., "images": [...]}`; images are byte lists. -/
structure Response where
  text : String
  images : List (List Nat)
deriving DecidableEq

/-- A row of the `executions` audit table. -/
structure Record where
  input : String
  output : String
  author : String
  url : String
  ts : String
deriving DecidableEq

/-! ### Shebang command parsing (`process_notification`, lines 296-312) -/

def missingBodyMsg : String := "Error: Missing code after shebang."
def invalidShebangMsg : String := "Error: Invalid shebang."
def wrongInterpreterMsg : String := "Error: Wrong interpreter."

inductive ParseResult where
  | err (msg : String)
  | ok (user lang body : String)
deriving DecidableEq

/-- The token dispatch of `process_notification`:
`_, user, lang = [p for p in shebang.split() if p]` (a ValueError, i.e. not
exactly three tokens, gives the invalid-shebang reply); `lang = lang.strip()`,
one leading `#` stripped; the addressee is compared with
`"@" + self.client.me.handle`. -/
def dispatchTokens (tokens : List (List Char)) (body : List Char)
    (botHandle : String) : ParseResult :=
  match tokens with
  | [_, user, lang0] =>
    let lang1 := stripChars lang0
    let lang := if beginsWith ['#'] lang1 then lang1.tail else lang1
    if user ≠ '@' :: botHandle.data then .err wrongInterpreterMsg
    else .ok ⟨user⟩ ⟨lang⟩ ⟨body⟩
  | _ => .err invalidShebangMsg

/-- The parsing head of `process_notification`:
`shebang, code = note.record.text.strip().split("\n", maxsplit=1)` (a
ValueError, i.e. no line break, gives the missing-body reply), then token
dispatch on the first line. -/
def parseShebang (text : String) (botHandle : String) : ParseResult :=
  match splitFirstNL (stripChars text.data) with
  | (_, none) => .err missingBodyMsg
  | (shebangLine, some code) => dispatchTokens (pySplitWS shebangLine) code botHandle

example : parseShebang "#! @bot.example python\nprint(1)" "bot.example"
    = .ok "@bot.example" "python" "print(1)" := by decide

example : parseShebang "#! @bot.example #python\nprint(1)" "bot.example"
    = .ok "@bot.example" "python" "print(1)" := by decide

example : parseShebang "#!" "bot.example" = .err missingBodyMsg := by decide

example : parseShebang "#! @bot.example\nx" "bot.example"
    = .err invalidShebangMsg := by decide

example : parseShebang "#! @other python\nx" "bot.example"
    = .err wrongInterpreterMsg := by decide

/-! ### base64 (Python `base64.b64encode` / `base64.b64decode`) -/

def b64Alphabet : List Char :=
  "ABCDEFGHIJKLMNOPQRSTUVWXYZabcdefghijklmnopqrstuvwxyz0123456789+/".data

def b64CharOf (n : Nat) : Char := b64Alphabet.getD n 'A'

/-- Decode groups of 6-bit values into bytes. -/
def decodeQuads : List Nat → List Nat
  | a :: b :: c :: d :: rest =>
    (a * 4 + b / 16) :: ((b % 16) * 16 + c / 4) :: ((c % 4) * 64 + d) :: decodeQuads rest
  | [a, b, c] => [a * 4 + b / 16, (b % 16) * 16 + c / 4]
  | [a, b] => [a * 4 + b / 16]
  | _ => []

/-- Python `base64.b64decode` (default mode: characters outside the alphabet,
including padding, are discarded before decoding). -/
def b64decode (s : String) : List Nat :=
  decodeQuads (s.data.filterMap (fun c => b64Alphabet.indexOf? c))

/-- Encode bytes into base64 characters with `=` padding. -/
def encodeBytes : List Nat → List Char
  | a :: b :: c :: rest =>
    b64CharOf (a / 4) :: b64CharOf ((a % 4) * 16 + b / 16) ::
      b64CharOf ((b % 16) * 4 + c / 64) :: b64CharOf (c % 64) :: encodeBytes rest
  | [a, b] => [b64CharOf (a / 4), b64CharOf ((a % 4) * 16 + b / 16), b64CharOf ((b % 16) * 4), '=']
  | [a] => [b64CharOf (a / 4), b64CharOf ((a % 4) * 16), '=', '=']
  | [] => []

/-- `base64.b64encode(s.encode())` for ASCII payloads, modelling bytes by
character codes. -/
def b64encodeAscii (s : String) : String :=
  ⟨encodeBytes (s.data.map Char.toNat)⟩

example : b64decode "QQ==" = [65] := by decide
example : b64encodeAscii "null" = "bnVsbA==" := by decide

/-! ### Execution results and output shaping (`_execute_code`, lines 360-405) -/

/-- One entry of `execution.results`; `png` is the base64-encoded image if
present (Python truthiness: an empty string counts as absent). -/
structure ExecArtifact where
  png : Option String
deriving DecidableEq

/-- The sandbox `run_code` result: stdout/stderr line lists, an optional
language-level error `(name, value)`, and result artifacts. -/
structure ExecOutput where
  stdout : List String
  stderr : List String
  error : Option (String × String)
  results : List ExecArtifact
deriving DecidableEq

/-- The output-shaping step of `_execute_code`:
`output = "\n".join(stdout + stderr)`, append `"{error.name}: {error.value}"`
on a new line when a language error is reported, then, when longer than 300
characters, cut at `max(output[:297].rfind("\n"), output[:297].rfind(" "))`
and append `"..."`. -/
def shapeText (exec : ExecOutput) : String :=
  let out0 := String.intercalate "\n" (exec.stdout ++ exec.stderr)
  let out1 :=
    match exec.error with
    | some e => out0 ++ "\n" ++ e.1 ++ ": " ++ e.2
    | none => out0
  let l := out1.data
  if l.length > 300 then
    let window := l.take 297
    let cutoff := max (pyRfind window '\n') (pyRfind window ' ')
    ⟨pySliceTo l cutoff ++ "...".data⟩
  else out1

/-- The png of an artifact when it is present and non-empty
(`hasattr(result_item, "png") and result_item.png`). -/
def pngOf (r : ExecArtifact) : Option String :=
  match r.png with
  | some p => if p = "" then none else some p
  | none => none

/-- Image collection of `_execute_code`:
`for result_item in execution.results[:4]: ... append(b64decode(result_item.png))`. -/
def collectImages (results : List ExecArtifact) : List (List Nat) :=
  (results.take 4).filterMap (fun r => (pngOf r).map b64decode)

/-- The successful-execution response: shaped text (then `.strip()`), plus the
collected images. -/
def shapeResult (exec : ExecOutput) : Response :=
  { text := ⟨stripChars (shapeText exec).data⟩
    images := collectImages exec.results }

/-! ### Sandbox lifecycle (`before_batch_processing`, `after_batch_processing`,
`_execute_code`) -/

/-- Observable events of one dispatch cycle. -/
inductive CycleEvent where
  | getTime (t : String)
  | listed
  | published (uri : String) (text : String)
  | recorded (r : Record)
  | sbCreated (id : Nat)
  | sbRan (id : Nat)
  | sbKilled (id : Nat)
  | markSeen (t : String)
deriving DecidableEq

/-- Environment of the sandbox collaborator for one batch:
`batchSandbox` is the outcome of the batch-scoped `Sandbox(timeout=20)` opened
in `before_batch_processing` (`none` when that creation failed), `createSandbox`
the outcome of a per-item fallback creation attempt, and `runCode` the outcome
of `sandbox.run_code(code, language=lang, timeout=15)`. -/
structure SandboxEnv where
  batchSandbox : Option Nat
  createSandbox : Except String Nat
  runCode : Nat → String → String → Except String ExecOutput

/-- `_execute_code`: use the batch sandbox when present, otherwise open a
per-item fallback (a creation failure returns the creation-error response);
run the code, shape the output, catch any execution exception as an
`"Error: ..."` response, and in the `finally` block kill the sandbox exactly
when it was locally created. Returns the response and the sandbox events. -/
def executeCode (senv : SandboxEnv) (code lang : String) :
    Response × List CycleEvent :=
  match senv.batchSandbox with
  | some sb =>
    match senv.runCode sb code lang with
    | .ok exec => (shapeResult exec, [.sbRan sb])
    | .error e => ({ text := "Error: " ++ e, images := [] }, [.sbRan sb])
  | none =>
    match senv.createSandbox with
    | .error e => ({ text := "Error creating sandbox: " ++ e, images := [] }, [])
    | .ok sb =>
      match senv.runCode sb code lang with
      | .ok exec => (shapeResult exec, [.sbCreated sb, .sbRan sb, .sbKilled sb])
      | .error e =>
        ({ text := "Error: " ++ e, images := [] }, [.sbCreated sb, .sbRan sb, .sbKilled sb])

/-- The sandbox actually used by `_execute_code`, when one could be obtained. -/
def usedSandbox (senv : SandboxEnv) : Option Nat :=
  match senv.batchSandbox with
  | some sb => some sb
  | none => senv.createSandbox.toOption

/-! ### Context bootstrapping (`_prepare_python_code`, `HELLO_MESSAGE`,
`BOOTSTRAP`) -/

/-- A single-quote character, used by the generated Python bootstrap. -/
def sq : String := String.singleton (Char.ofNat 39)

/-- `CodeExecutionBot.HELLO_MESSAGE` after its `.strip()` (the interior
four-space indentation of the triple-quoted literal is preserved). -/
def helloMessage : String :=
  "HELLO WORLD!\n\n    I AM A BOT THAT WILL EXECUTE YOUR CODE.\n    PUT THIS ON THE FIRST LINE OF YOUR POST:\n    #! @runcode.bsky.social python\n    AND THEN WRITE YOUR CODE.\n\n    DM ISSUES TO @medecau.bsky.social\n\n    BE KIND AND ENJOY! ✨"

/-- `CodeExecutionBot.BOOTSTRAP.format(payload=..., HELLO_MESSAGE=...)`;
`payloadRepr` is the `str.format` rendering of the Python `bytes` payload. -/
def bootstrapCode (payloadRepr : String) : String :=
  "import json, base64\nbsky = json.loads(base64.b64decode(" ++ payloadRepr
    ++ ").decode())\ndef say_hello():\n  print(" ++ sq ++ sq ++ sq
    ++ helloMessage ++ sq ++ sq ++ sq ++ ")"

/-- A referenced post as used for the reply context. -/
structure PostView where
  author : String
  text : String
deriving DecidableEq

def jsonEscapeChar (c : Char) : List Char :=
  if c = '"' then ['\\', '"']
  else if c = '\\' then ['\\', '\\']
  else if c = '\n' then ['\\', 'n']
  else if c = '\t' then ['\\', 't']
  else if c = '\r' then ['\\', 'r']
  else [c]

/-- `json.dumps` of a string (escaping of the characters we model). -/
def jsonStr (s : String) : String :=
  "\"" ++ String.mk (s.data.flatMap jsonEscapeChar) ++ "\""

def jsonOfPost (p : PostView) : String :=
  "\x7b\"author\": " ++ jsonStr p.author ++ ", \"text\": " ++ jsonStr p.text ++ "\x7d"

/-- `json.dumps({"parent": posts[0], "root": posts[1]})`. -/
def jsonContext (parent root : PostView) : String :=
  "\x7b\"parent\": " ++ jsonOfPost parent ++ ", \"root\": " ++ jsonOfPost root ++ "\x7d"

/-- Environment of the social-network collaborator: the bot handle, the
timestamp returned by `get_current_time_iso`, the timestamp `now()` used for
audit rows, and the outcome of `get_posts([parent.uri, root.uri])`. -/
structure BotEnv where
  botHandle : String
  currentTime : String
  nowTs : String
  getPosts : String → String → Except String (PostView × PostView)

/-- `_prepare_python_code`: when the note carries reply linkage, fetch parent
and root posts and embed them base64-encoded in the bootstrap preamble; on a
fetch failure (or for a non-reply) embed `json.dumps(None)`; prepend the
bootstrap to the user code. -/
def preparePythonCode (benv : BotEnv) (note : Note) (code : String) : String :=
  let payload :=
    match note.record.reply with
    | some r =>
      match benv.getPosts r.parent_uri r.root_uri with
      | .ok pr => b64encodeAscii (jsonContext pr.1 pr.2)
      | .error _ => b64encodeAscii "null"
    | none => b64encodeAscii "null"
  bootstrapCode ("b" ++ sq ++ payload ++ sq) ++ "\n" ++ code

/-! ### Per-item processing (`process_notification`, lines 296-332) -/

/-- The outcome of `process_notification` for one note: the response returned
to `_process_batch`, the audit rows inserted into `executions`, and the
sandbox events of `_execute_code`. -/
structure ItemResult where
  resp : Response
  records : List Record
  sbTrace : List CycleEvent
deriving DecidableEq

/-- `process_notification`: parse the shebang (each parse failure returns an
error response and touches nothing else); for `python`, bootstrap the code
with reply context; execute; insert exactly one `executions` row with the
input text, the response text, the author handle, the note URI and `now()`. -/
def processNotification (benv : BotEnv) (senv : SandboxEnv) (note : Note) :
    ItemResult :=
  match parseShebang note.record.text benv.botHandle with
  | .err msg => ⟨⟨msg, []⟩, [], []⟩
  | .ok _user lang body =>
    let code := if lang = "python" then preparePythonCode benv note body else body
    let er := executeCode senv code lang
    ⟨er.1, [⟨note.record.text, er.1.text, note.author.handle, note.uri, benv.nowTs⟩], er.2⟩

/-- The outcome of the `for note in notifications` loop of `_process_batch`:
one `_send_response` per note (in order), the inserted audit rows, and the
per-item events (audit insert precedes the publish of each item). -/
structure BatchResult where
  publishes : List (Note × Response)
  records : List Record
  trace : List CycleEvent
deriving DecidableEq

def processBatch (benv : BotEnv) (senv : SandboxEnv) : List Note → BatchResult
  | [] => ⟨[], [], []⟩
  | n :: rest =>
    let item := processNotification benv senv n
    let tl := processBatch benv senv rest
    ⟨(n, item.resp) :: tl.publishes,
     item.records ++ tl.records,
     (item.sbTrace ++ item.records.map CycleEvent.recorded
        ++ [CycleEvent.published n.uri item.resp.text]) ++ tl.trace⟩

/-! ### Filter pipeline and rate limiter (`_filter_base_notifications`,
`filter_notifications`, `should_handle_notification`) -/

def shebangMarker : List Char := ['#', '!']

/-- `should_handle_notification`: `note.record.text.strip().startswith("#!")`. -/
def shouldHandle (n : Note) : Bool :=
  beginsWith shebangMarker (stripChars n.record.text.data)

/-- `_filter_base_notifications`: the chain of generator-expression filters. -/
def baseFilter (notes : List Note) : List Note :=
  ((((((notes.filter (fun n => !n.is_read)).filter
      (fun n => n.reason == "mention" || n.reason == "reply")).filter
      (fun n => !n.author.viewer.blocked_by)).filter
      (fun n => !n.author.viewer.blocking)).filter
      (fun n => !n.author.viewer.blocking_by_list)).filter
      (fun n => !n.author.viewer.muted)).filter
      (fun n => !n.author.viewer.muted_by_list)

/-- The base filter followed by the bot-specific content filter. -/
def contentFilter (notes : List Note) : List Note :=
  (baseFilter notes).filter shouldHandle

def overflowResponse : Response :=
  { text := "Error: Too many mentions. Please wait for a response before mentioning again."
    images := [] }

/-- The rate-limiting loop of `filter_notifications`: `seen_authors` is the
per-call author set (modelled as a list; only membership is used and authors
are appended when first seen); an already-seen author's note is answered
immediately with `overflowResponse` and not forwarded. Returns the forwarded
notes and the overflow publishes, both in stream order. -/
def rateLimitAux (seen : List String) : List Note → List Note × List (Note × Response)
  | [] => ([], [])
  | n :: rest =>
    if n.author.handle ∈ seen then
      ((rateLimitAux seen rest).1, (n, overflowResponse) :: (rateLimitAux seen rest).2)
    else
      (n :: (rateLimitAux (seen ++ [n.author.handle]) rest).1,
       (rateLimitAux (seen ++ [n.author.handle]) rest).2)

/-- `filter_notifications`: base and content filtering, then rate limiting
with a freshly-emptied `seen_authors` set. -/
def filterNotifications (notes : List Note) : List Note × List (Note × Response) :=
  rateLimitAux [] (contentFilter notes)

/-! ### One dispatch cycle (`_handle_client_operations`, `_process_batch`) -/

structure CycleResult where
  forwarded : List Note
  overflow : List (Note × Response)
  records : List Record
  trace : List CycleEvent
deriving DecidableEq

/-- `_handle_client_operations` and the `_process_batch` it calls:
capture `last_seen_at = get_current_time_iso()` first, list the
notifications, filter and rate-limit (overflow replies are published during
filtering), open the batch sandbox when the filtered batch is non-empty,
process every forwarded note, tear the batch sandbox down, and call
`update_seen(last_seen_at)` exactly when the filtered batch is non-empty. -/
def handleClientOps (benv : BotEnv) (senv : SandboxEnv) (raw : List Note) :
    CycleResult :=
  let t := benv.currentTime
  let p := filterNotifications raw
  let batchOpen : List CycleEvent :=
    if p.1.isEmpty then []
    else
      match senv.batchSandbox with
      | some sb => [.sbCreated sb]
      | none => []
  let q := processBatch benv senv p.1
  let batchClose : List CycleEvent :=
    if p.1.isEmpty then []
    else
      match senv.batchSandbox with
      | some sb => [.sbKilled sb]
      | none => []
  let seenEvs : List CycleEvent := if p.1.isEmpty then [] else [.markSeen t]
  { forwarded := p.1
    overflow := p.2
    records := q.records
    trace := [CycleEvent.getTime t, CycleEvent.listed]
      ++ p.2.map (fun o => CycleEvent.published o.1.uri o.2.text)
      ++ batchOpen ++ q.trace ++ batchClose ++ seenEvs }

/-! ### Sample data for witnesses and counterexamples -/

def viewer0 : Viewer := ⟨false, false, false, false, false⟩

def benv0 : BotEnv :=
  { botHandle := "bot.test"
    currentTime := "2024-01-01T00:00:00Z"
    nowTs := "2024-01-01T00:00:05Z"
    getPosts := fun _ _ => .error "offline" }

def execOut0 : ExecOutput := ⟨["hi"], [], none, []⟩

def senv0 : SandboxEnv :=
  { batchSandbox := some 1
    createSandbox := .ok 2
    runCode := fun _ _ _ => .ok execOut0 }

def senvFallback : SandboxEnv :=
  { batchSandbox := none
    createSandbox := .ok 7
    runCode := fun _ _ _ => .error "boom" }

def senvErr : SandboxEnv :=
  { batchSandbox := some 5
    createSandbox := .error "nope"
    runCode := fun _ _ _ => .error "boom" }

def goodNote : Note :=
  { uri := "at://good", cid := "c1"
    author := ⟨"alice.test", viewer0⟩
    reason := "mention", is_read := false
    record := ⟨"#! @bot.test sh\nls", none⟩ }

def badNote : Note :=
  { uri := "at://bad", cid := "c2"
    author := ⟨"eve.test", viewer0⟩
    reason := "mention", is_read := false
    record := ⟨"#!", none⟩ }

/-! ### Shared helper lemmas -/

theorem processBatch_publishes (benv : BotEnv) (senv : SandboxEnv) :
    ∀ notes : List Note,
      (processBatch benv senv notes).publishes.map Prod.fst = notes
  | [] => rfl
  | n :: rest => by
    simp [processBatch, processBatch_publishes benv senv rest]

/-! ### Claim C1 -/

def longOutput : ExecOutput := ⟨[⟨List.replicate 350 'a'⟩], [], none, []⟩

set_option maxRecDepth 40000 in
/-- C1: for an execution output of 350 characters with no space or newline in
the first 297 characters, the claim demands truncation to exactly 297
characters plus the ellipsis; the code computes `rfind = -1` for both
boundaries and slices `output[:-1]`, producing 349 characters plus the
ellipsis (352 characters in total), so the code contradicts the spec's
explicit testable property. -/
theorem c1_truncation_code_bug :
    shapeText longOutput = ⟨List.replicate 349 'a' ++ "...".data⟩ ∧
    (shapeText longOutput).length = 352 ∧
    shapeText longOutput ≠ ⟨List.replicate 297 'a' ++ "...".data⟩ := by
  refine ⟨by decide, by decide, by decide⟩

/-! ### Claim C2 -/

/-- C2 counterexample: the note whose text is `"#!"` reaches per-item
processing (its text starts with the marker) and fails parsing with the
missing-body reply, yet `process_notification` returns before
`executions.insert`, so zero ExecutionRecords are appended instead of the
exactly one the claim demands. -/
theorem c2_counterexample :
    (processNotification benv0 senv0 badNote).resp.text = missingBodyMsg ∧
    (processNotification benv0 senv0 badNote).records.length = 0 := by
  refine ⟨by decide, by decide⟩

/-- C2 (amended): every note processed by `_process_batch` receives exactly
one published response, but an ExecutionRecord is appended only when the
shebang parse succeeds (execution was attempted): one record with the input
text, the response text, the author handle, the source URI and the timestamp;
parse failures (missing body, invalid shebang, wrong interpreter) append no
record. -/
theorem c2_record_publish_discipline (benv : BotEnv) (senv : SandboxEnv) :
    (∀ notes : List Note,
      (processBatch benv senv notes).publishes.map Prod.fst = notes) ∧
    (∀ note : Note,
      (processNotification benv senv note).records.length =
        match parseShebang note.record.text benv.botHandle with
        | .ok _ _ _ => 1
        | .err _ => 0) ∧
    (∀ (note : Note) (u lang body : String),
      parseShebang note.record.text benv.botHandle = .ok u lang body →
      (processNotification benv senv note).records =
        [⟨note.record.text, (processNotification benv senv note).resp.text,
          note.author.handle, note.uri, benv.nowTs⟩]) := by
  refine ⟨processBatch_publishes benv senv, ?_, ?_⟩
  · intro note
    cases h : parseShebang note.record.text benv.botHandle <;>
      simp [processNotification, h]
  · intro note u lang body h
    simp [processNotification, h]

/-- C2 witness: a concrete successfully-parsed note appends exactly the one
expected record. -/
theorem c2_witness :
    (processNotification benv0 senv0 goodNote).records =
      [⟨"#! @bot.test sh\nls", "hi", "alice.test", "at://good",
        "2024-01-01T00:00:05Z"⟩] := by
  have h := (c2_record_publish_discipline benv0 senv0).2.2 goodNote
    "@bot.test" "sh" "ls" (by decide)
  exact h.trans (by decide)

/-! ### Claim C5 -/

/-- C5: when the batch-scoped sandbox failed to open, every note of the batch
still produces exactly one response (none skipped); each execution that can
open a per-item fallback sandbox has it created, used for that single run and
killed immediately afterwards, whether the run succeeded or raised; and even
a failed fallback creation still produces a response. -/
theorem c5_fallback_sandbox (benv : BotEnv) (senv : SandboxEnv)
    (notes : List Note) (code lang : String)
    (hb : senv.batchSandbox = none) :
    ((processBatch benv senv notes).publishes.map Prod.fst = notes) ∧
    (∀ sb : Nat, senv.createSandbox = .ok sb →
      (executeCode senv code lang).2
        = [.sbCreated sb, .sbRan sb, .sbKilled sb]) ∧
    (∀ e : String, senv.createSandbox = .error e →
      executeCode senv code lang
        = ({ text := "Error creating sandbox: " ++ e, images := [] }, [])) := by
  refine ⟨processBatch_publishes benv senv notes, ?_, ?_⟩
  · intro sb hc
    cases hr : senv.runCode sb code lang <;>
      simp [executeCode, hb, hc, hr]
  · intro e hc
    simp [executeCode, hb, hc]

/-- C5 witness: with a failed batch sandbox, a successful fallback creation
and a raising execution, the fallback sandbox is created, used once and
killed. -/
theorem c5_witness :
    (executeCode senvFallback "x" "python").2
      = [.sbCreated 7, .sbRan 7, .sbKilled 7] :=
  (c5_fallback_sandbox benv0 senvFallback [] "x" "python" rfl).2.1 7 rfl

/-! ### Claim C7 -/

def demoArtifacts : List ExecArtifact :=
  [⟨none⟩, ⟨some "QQ=="⟩, ⟨some "Qg=="⟩, ⟨some "Qw=="⟩, ⟨some "RA=="⟩]

/-- The claim's reading: the first four image artifacts of the execution
result are decoded and collected, artifacts beyond the first four dropped. -/
def claimedImages (results : List ExecArtifact) : List (List Nat) :=
  ((results.filterMap pngOf).take 4).map b64decode

/-- C7 counterexample: with five artifacts of which the first carries no
image, the code slices `results[:4]` before testing for images and collects
only three, dropping the fourth image artifact even though it is not beyond
the first four image artifacts. -/
theorem c7_counterexample :
    collectImages demoArtifacts ≠ claimedImages demoArtifacts := by decide

/-- C7 (amended): the collected images are the decoded non-empty png
artifacts among the first four entries of `execution.results`, in result
order; hence at most four images are collected and they form an ordered
sublist of all decoded image artifacts; artifacts beyond the first four
result entries are dropped silently. -/
theorem c7_images_amended (results : List ExecArtifact) :
    (collectImages results).length ≤ 4 ∧
    collectImages results = ((results.take 4).filterMap pngOf).map b64decode ∧
    List.Sublist (collectImages results)
      ((results.filterMap pngOf).map b64decode) := by
  refine ⟨?_, ?_, ?_⟩
  · calc (collectImages results).length ≤ (results.take 4).length :=
          List.length_filterMap_le _ _
      _ ≤ 4 := List.length_take_le _ _
  · unfold collectImages
    rw [List.map_filterMap]
  · unfold collectImages
    rw [List.map_filterMap]
    exact List.Sublist.filterMap _ (List.take_sublist 4 results)

/-! ### Claim C8 -/

/-- C8: whenever the sandbox actually used by `_execute_code` raises during
code execution, the returned response is the synthetic
`"Error: <message>"` with an empty image list; the failure does not
propagate (the function returns a response). -/
theorem c8_execution_error_contained (senv : SandboxEnv) (code lang : String)
    (sb : Nat) (e : String)
    (hsb : usedSandbox senv = some sb)
    (hrun : senv.runCode sb code lang = .error e) :
    (executeCode senv code lang).1 = { text := "Error: " ++ e, images := [] } := by
  cases h : senv.batchSandbox with
  | some b =>
    have hb : b = sb := by simpa [usedSandbox, h] using hsb
    subst hb
    simp [executeCode, h, hrun]
  | none =>
    cases hc : senv.createSandbox with
    | error e2 => simp [usedSandbox, h, hc, Except.toOption] at hsb
    | ok b =>
      have hb : b = sb := by
        simpa [usedSandbox, h, hc, Except.toOption] using hsb
      subst hb
      simp [executeCode, h, hc, hrun]

/-- C8 witness: a concrete raising execution yields the synthetic error
response. -/
theorem c8_witness :
    (executeCode senvErr "x" "python").1
      = { text := "Error: boom", images := [] } :=
  c8_execution_error_contained senvErr "x" "python" 5 "boom" rfl rfl

/-! ### Parser lemmas (for C4 and C10) -/

theorem splitFirstNL_snd_none : ∀ l : List Char,
    (splitFirstNL l).2 = none ↔ '\n' ∉ l := by
  intro l
  induction l with
  | nil => simp [splitFirstNL]
  | cons c rest ih =>
    by_cases hc : c = '\n'
    · subst hc; simp [splitFirstNL]
    · simp [splitFirstNL, hc, ih, Ne.symm hc]

theorem mem_stripRightChars {x : Char} {m : List Char}
    (h : x ∈ stripRightChars m) : x ∈ m := by
  unfold stripRightChars at h
  rw [List.mem_reverse] at h
  have h2 := (List.dropWhile_sublist isWS).subset h
  exact List.mem_reverse.1 h2

theorem mem_stripChars {x : Char} {m : List Char}
    (h : x ∈ stripChars m) : x ∈ m :=
  mem_stripRightChars ((List.dropWhile_sublist isWS).subset h)

theorem stripChars_ws_tail (head tail : List Char)
    (h2 : ∀ c ∈ tail, isWS c = true) :
    stripChars (head ++ '\n' :: tail) = stripChars head := by
  have hws : ∀ a ∈ tail.reverse ++ ['\n'], isWS a = true := by
    intro a ha
    rcases List.mem_append.1 ha with h | h
    · exact h2 a (List.mem_reverse.1 h)
    · simp only [List.mem_singleton] at h
      subst h; decide
  unfold stripChars stripRightChars
  rw [List.reverse_append, List.reverse_cons,
    List.dropWhile_append_of_pos hws]

theorem dispatchTokens_not3 (tk : List (List Char)) (body : List Char)
    (handle : String) (h : tk.length ≠ 3) :
    dispatchTokens tk body handle = .err invalidShebangMsg := by
  cases tk with
  | nil => rfl
  | cons a t1 =>
    cases t1 with
    | nil => rfl
    | cons b t2 =>
      cases t2 with
      | nil => rfl
      | cons c t3 =>
        cases t3 with
        | nil => simp at h
        | cons d t4 => rfl

theorem dispatchTokens_3 (m u l body : List Char) (handle : String) :
    dispatchTokens [m, u, l] body handle =
      if u ≠ '@' :: handle.data then .err wrongInterpreterMsg
      else .ok ⟨u⟩
        ⟨if beginsWith ['#'] (stripChars l) then (stripChars l).tail
          else stripChars l⟩ ⟨body⟩ := rfl

/-! ### Claim C4 -/

/-- C4: for a request text (one whose trimmed form starts with the `#!`
marker), parsing fails with the missing-body message iff the trimmed text has
no line break; given a line break, it fails with the invalid-shebang message
iff the first line does not split into exactly three non-empty
whitespace-separated tokens; given exactly three tokens, it fails with the
wrong-interpreter message iff the addressee token differs from
`@<bot-handle>`; and the three failure messages are pairwise distinct. -/
theorem c4_parse_failure_modes (text handle : String)
    (hmark : beginsWith shebangMarker (stripChars text.data) = true) :
    (parseShebang text handle = .err missingBodyMsg ↔
      '\n' ∉ stripChars text.data) ∧
    ('\n' ∈ stripChars text.data →
      (parseShebang text handle = .err invalidShebangMsg ↔
        (pySplitWS (splitFirstNL (stripChars text.data)).1).length ≠ 3)) ∧
    (∀ m u l : List Char, '\n' ∈ stripChars text.data →
      pySplitWS (splitFirstNL (stripChars text.data)).1 = [m, u, l] →
      (parseShebang text handle = .err wrongInterpreterMsg ↔
        u ≠ '@' :: handle.data)) ∧
    (missingBodyMsg ≠ invalidShebangMsg ∧
      invalidShebangMsg ≠ wrongInterpreterMsg ∧
      missingBodyMsg ≠ wrongInterpreterMsg) := by
  have dmsg : missingBodyMsg ≠ invalidShebangMsg ∧
      invalidShebangMsg ≠ wrongInterpreterMsg ∧
      missingBodyMsg ≠ wrongInterpreterMsg := by
    refine ⟨by decide, by decide, by decide⟩
  rcases hs : splitFirstNL (stripChars text.data) with ⟨line, rest⟩
  cases rest with
  | none =>
    have hnl : '\n' ∉ stripChars text.data :=
      (splitFirstNL_snd_none _).mp (by rw [hs])
    have hp : parseShebang text handle = .err missingBodyMsg := by
      simp [parseShebang, hs]
    refine ⟨by simp [hp, hnl], ?_, ?_, dmsg⟩
    · intro hmem; exact absurd hmem hnl
    · intro m u l hmem _; exact absurd hmem hnl
  | some body =>
    have hnl : '\n' ∈ stripChars text.data := by
      by_contra hno
      have := (splitFirstNL_snd_none _).mpr hno
      rw [hs] at this
      simp at this
    have hparse : parseShebang text handle
        = dispatchTokens (pySplitWS line) body handle := by
      simp [parseShebang, hs]
    dsimp only
    by_cases hlen : (pySplitWS line).length = 3
    · obtain ⟨m, u, l, htk⟩ := List.length_eq_three.1 hlen
      by_cases hu : u = '@' :: handle.data
      · have hp : parseShebang text handle
            = .ok ⟨u⟩
              ⟨if beginsWith ['#'] (stripChars l) then (stripChars l).tail
                else stripChars l⟩ ⟨body⟩ := by
          rw [hparse, htk, dispatchTokens_3]
          simp [hu]
        refine ⟨by simp [hp, hnl], ?_, ?_, dmsg⟩
        · intro _
          simp [hp, htk]
        · intro m' u' l' _ htk'
          rw [htk] at htk'
          injection htk' with h1 htk'
          injection htk' with h2 htk'
          subst h2
          simp [hp, hu]
      · have hp : parseShebang text handle = .err wrongInterpreterMsg := by
          rw [hparse, htk, dispatchTokens_3]
          simp [hu]
        refine ⟨?_, ?_, ?_, dmsg⟩
        · simp [hp, hnl, missingBodyMsg, wrongInterpreterMsg]
        · intro _
          simp [hp, hlen, invalidShebangMsg, wrongInterpreterMsg]
        · intro m' u' l' _ htk'
          rw [htk] at htk'
          injection htk' with h1 htk'
          injection htk' with h2 htk'
          subst h2
          simp [hp, hu]
    · have hp : parseShebang text handle = .err invalidShebangMsg := by
        rw [hparse, dispatchTokens_not3 _ _ _ hlen]
      refine ⟨?_, ?_, ?_, dmsg⟩
      · simp [hp, hnl, missingBodyMsg, invalidShebangMsg]
      · intro _
        simp [hp, hlen]
      · intro m' u' l' _ htk'
        rw [htk'] at hlen
        simp at hlen

/-- C4 witness: a marker-bearing text with no line break fails with the
missing-body message. -/
theorem c4_witness :
    parseShebang "#! @x python" "bot.test" = .err missingBodyMsg :=
  ((c4_parse_failure_modes "#! @x python" "bot.test" (by decide)).1).mpr
    (by decide)

/-! ### Claim C10 -/

/-- C10: a request text whose content after the first line break is
whitespace-only fails with the missing-body message: the text is trimmed
before being split on the line break, so the whitespace-only remainder (and
the line break itself) is stripped away and no remainder is left. -/
theorem c10_ws_only_body (head tail handle : String)
    (h1 : '\n' ∉ head.data) (h2 : ∀ c ∈ tail.data, isWS c = true) :
    parseShebang (head ++ "\n" ++ tail) handle = .err missingBodyMsg := by
  have hd : (head ++ "\n" ++ tail).data = head.data ++ ('\n' :: tail.data) := by
    rw [String.data_append, String.data_append, List.append_assoc]
    rfl
  have hstrip : stripChars (head ++ "\n" ++ tail).data
      = stripChars head.data := by
    rw [hd]
    exact stripChars_ws_tail _ _ h2
  have hnl : '\n' ∉ stripChars (head ++ "\n" ++ tail).data := by
    rw [hstrip]
    intro hmem
    exact h1 (mem_stripChars hmem)
  have hnone := (splitFirstNL_snd_none _).mpr hnl
  rcases hs : splitFirstNL (stripChars (head ++ "\n" ++ tail).data)
    with ⟨line, rest⟩
  rw [hs] at hnone
  simp only at hnone
  subst hnone
  rw [hd] at hs
  simp [parseShebang, hd, hs]

/-- C10 witness: `"#! @bot.test python\n   "` fails with the missing-body
message. -/
theorem c10_witness :
    parseShebang ("#! @bot.test python" ++ "\n" ++ "   ") "bot.test"
      = .err missingBodyMsg :=
  c10_ws_only_body "#! @bot.test python" "   " "bot.test"
    (by decide) (by decide)

/-! ### Rate-limiter specification (for C3)

The spec side is stated positionally, straight from the spec's words: a
notification is forwarded iff its author's handle does not occur among the
strictly earlier notifications of the batch; otherwise it receives exactly
one overflow reply, all in original stream order. -/

/-- The author handles of the first `i` notifications of the batch. -/
def authorsOfTake (notes : List Note) (i : Nat) : List String :=
  (notes.take i).map (fun m => m.author.handle)

/-- Forwarded per the spec, generalised by an initial seen-set. -/
def forwardedSpecFrom (seen : List String) (notes : List Note) : List Note :=
  notes.enum.filterMap (fun p =>
    if p.2.author.handle ∈ seen ++ authorsOfTake notes p.1 then none
    else some p.2)

/-- Overflow replies per the spec, generalised by an initial seen-set. -/
def overflowSpecFrom (seen : List String) (notes : List Note) :
    List (Note × Response) :=
  notes.enum.filterMap (fun p =>
    if p.2.author.handle ∈ seen ++ authorsOfTake notes p.1 then
      some (p.2, overflowResponse)
    else none)

/-- The first notification of each distinct author, in stream order. -/
def forwardedSpec (notes : List Note) : List Note :=
  forwardedSpecFrom [] notes

/-- One overflow reply for each later notification of an already-seen
author, in stream order. -/
def overflowSpec (notes : List Note) : List (Note × Response) :=
  overflowSpecFrom [] notes

theorem forwardedSpecFrom_congr (seen₁ seen₂ : List String)
    (h : ∀ a : String, a ∈ seen₁ ↔ a ∈ seen₂) (notes : List Note) :
    forwardedSpecFrom seen₁ notes = forwardedSpecFrom seen₂ notes := by
  unfold forwardedSpecFrom
  refine List.filterMap_congr (fun p _ => ?_)
  refine if_congr ?_ rfl rfl
  constructor
  · intro hm
    rcases List.mem_append.1 hm with hm | hm
    · exact List.mem_append.2 (Or.inl ((h _).1 hm))
    · exact List.mem_append.2 (Or.inr hm)
  · intro hm
    rcases List.mem_append.1 hm with hm | hm
    · exact List.mem_append.2 (Or.inl ((h _).2 hm))
    · exact List.mem_append.2 (Or.inr hm)

theorem overflowSpecFrom_congr (seen₁ seen₂ : List String)
    (h : ∀ a : String, a ∈ seen₁ ↔ a ∈ seen₂) (notes : List Note) :
    overflowSpecFrom seen₁ notes = overflowSpecFrom seen₂ notes := by
  unfold overflowSpecFrom
  refine List.filterMap_congr (fun p _ => ?_)
  refine if_congr ?_ rfl rfl
  constructor
  · intro hm
    rcases List.mem_append.1 hm with hm | hm
    · exact List.mem_append.2 (Or.inl ((h _).1 hm))
    · exact List.mem_append.2 (Or.inr hm)
  · intro hm
    rcases List.mem_append.1 hm with hm | hm
    · exact List.mem_append.2 (Or.inl ((h _).2 hm))
    · exact List.mem_append.2 (Or.inr hm)

theorem forwardedSpecFrom_cons (seen : List String) (n : Note)
    (rest : List Note) :
    forwardedSpecFrom seen (n :: rest) =
      (if n.author.handle ∈ seen then [] else [n])
        ++ forwardedSpecFrom (seen ++ [n.author.handle]) rest := by
  have hpoint : ∀ p : Nat × Note,
      (if p.2.author.handle
          ∈ seen ++ List.map (fun m => m.author.handle)
              (List.take (p.1 + 1) (n :: rest)) then (none : Option Note)
        else some p.2)
      = (if p.2.author.handle
          ∈ seen ++ [n.author.handle]
              ++ List.map (fun m => m.author.handle) (List.take p.1 rest) then
          none
        else some p.2) := by
    intro p
    have hl : seen ++ List.map (fun m => m.author.handle)
          (List.take (p.1 + 1) (n :: rest))
        = seen ++ [n.author.handle]
            ++ List.map (fun m => m.author.handle) (List.take p.1 rest) := by
      rw [List.take_succ_cons, List.map_cons, List.append_cons]
    exact if_congr (by rw [hl]) rfl rfl
  by_cases hmem : n.author.handle ∈ seen
  · simp only [forwardedSpecFrom, authorsOfTake, List.enum_cons',
      List.filterMap_cons, List.take_zero, List.map_nil, List.append_nil,
      if_pos hmem, List.filterMap_map, List.nil_append]
    refine List.filterMap_congr (fun p _ => ?_)
    rcases p with ⟨i, m⟩
    simp only [Function.comp, Prod.map, id]
    exact hpoint (i, m)
  · simp only [forwardedSpecFrom, authorsOfTake, List.enum_cons',
      List.filterMap_cons, List.take_zero, List.map_nil, List.append_nil,
      if_neg hmem, List.filterMap_map, List.cons_append, List.nil_append,
      List.cons.injEq, true_and]
    refine List.filterMap_congr (fun p _ => ?_)
    rcases p with ⟨i, m⟩
    simp only [Function.comp, Prod.map, id]
    exact hpoint (i, m)

theorem overflowSpecFrom_cons (seen : List String) (n : Note)
    (rest : List Note) :
    overflowSpecFrom seen (n :: rest) =
      (if n.author.handle ∈ seen then [(n, overflowResponse)] else [])
        ++ overflowSpecFrom (seen ++ [n.author.handle]) rest := by
  have hpoint : ∀ p : Nat × Note,
      (if p.2.author.handle
          ∈ seen ++ List.map (fun m => m.author.handle)
              (List.take (p.1 + 1) (n :: rest)) then
          some (p.2, overflowResponse)
        else (none : Option (Note × Response)))
      = (if p.2.author.handle
          ∈ seen ++ [n.author.handle]
              ++ List.map (fun m => m.author.handle) (List.take p.1 rest) then
          some (p.2, overflowResponse)
        else none) := by
    intro p
    have hl : seen ++ List.map (fun m => m.author.handle)
          (List.take (p.1 + 1) (n :: rest))
        = seen ++ [n.author.handle]
            ++ List.map (fun m => m.author.handle) (List.take p.1 rest) := by
      rw [List.take_succ_cons, List.map_cons, List.append_cons]
    exact if_congr (by rw [hl]) rfl rfl
  by_cases hmem : n.author.handle ∈ seen
  · simp only [overflowSpecFrom, authorsOfTake, List.enum_cons',
      List.filterMap_cons, List.take_zero, List.map_nil, List.append_nil,
      if_pos hmem, List.filterMap_map, List.cons_append, List.nil_append,
      List.cons.injEq, true_and]
    refine List.filterMap_congr (fun p _ => ?_)
    rcases p with ⟨i, m⟩
    simp only [Function.comp, Prod.map, id]
    exact hpoint (i, m)
  · simp only [overflowSpecFrom, authorsOfTake, List.enum_cons',
      List.filterMap_cons, List.take_zero, List.map_nil, List.append_nil,
      if_neg hmem, List.filterMap_map, List.nil_append]
    refine List.filterMap_congr (fun p _ => ?_)
    rcases p with ⟨i, m⟩
    simp only [Function.comp, Prod.map, id]
    exact hpoint (i, m)

theorem rateLimitAux_spec : ∀ (notes : List Note) (seen : List String),
    rateLimitAux seen notes
      = (forwardedSpecFrom seen notes, overflowSpecFrom seen notes) := by
  intro notes
  induction notes with
  | nil => intro seen; rfl
  | cons n rest ih =>
    intro seen
    rw [forwardedSpecFrom_cons, overflowSpecFrom_cons]
    by_cases hmem : n.author.handle ∈ seen
    · have hcongr : ∀ a : String, a ∈ seen ↔ a ∈ seen ++ [n.author.handle] := by
        intro a
        constructor
        · intro ha; exact List.mem_append.2 (Or.inl ha)
        · intro ha
          rcases List.mem_append.1 ha with ha | ha
          · exact ha
          · simp only [List.mem_singleton] at ha
            subst ha; exact hmem
      simp only [rateLimitAux, if_pos hmem, ih seen, if_pos hmem]
      rw [forwardedSpecFrom_congr seen (seen ++ [n.author.handle]) hcongr rest,
        overflowSpecFrom_congr seen (seen ++ [n.author.handle]) hcongr rest]
      rfl
    · simp only [rateLimitAux, if_neg hmem, ih (seen ++ [n.author.handle]),
        if_neg hmem]
      rfl

/-! ### Claim C3 -/

/-- C3: per cycle, `filter_notifications` rate-limits the content-filtered
batch starting from a freshly-emptied seen-author set, forwarding exactly the
first notification of each distinct author handle in original stream order,
and emitting exactly one synthetic overflow reply for each later
notification of an already-seen author, in original order, without
forwarding it (stated for the pipeline and for every batch). -/
theorem c3_rate_limiter (raw : List Note) :
    filterNotifications raw
      = (forwardedSpec (contentFilter raw), overflowSpec (contentFilter raw)) ∧
    ∀ batch : List Note,
      rateLimitAux [] batch = (forwardedSpec batch, overflowSpec batch) :=
  ⟨rateLimitAux_spec (contentFilter raw) [],
   fun batch => rateLimitAux_spec batch []⟩

/-! ### Trace helper lemmas (for C6 and C9) -/

def isMarkSeenEv : CycleEvent → Bool
  | .markSeen _ => true
  | _ => false

def isRecordedEv : CycleEvent → Bool
  | .recorded _ => true
  | _ => false

theorem executeCode_no_markSeen (senv : SandboxEnv) (code lang : String) :
    ((executeCode senv code lang).2).filter isMarkSeenEv = [] := by
  rcases hb : senv.batchSandbox with _ | sb
  · rcases hc : senv.createSandbox with e | sb
    · simp [executeCode, hb, hc]
    · rcases hr : senv.runCode sb code lang with e | ex <;>
        simp [executeCode, hb, hc, hr, isMarkSeenEv]
  · rcases hr : senv.runCode sb code lang with e | ex <;>
      simp [executeCode, hb, hr, isMarkSeenEv]

theorem processNotification_no_markSeen (benv : BotEnv) (senv : SandboxEnv)
    (note : Note) :
    ((processNotification benv senv note).sbTrace).filter isMarkSeenEv = [] := by
  cases h : parseShebang note.record.text benv.botHandle with
  | err m => simp [processNotification, h]
  | ok u lang body =>
    simp only [processNotification, h]
    exact executeCode_no_markSeen senv _ _

theorem filter_markSeen_map_pub (l : List (Note × Response)) :
    ((l.map (fun o => CycleEvent.published o.1.uri o.2.text)).filter
      isMarkSeenEv) = [] := by
  induction l with
  | nil => rfl
  | cons a t ih => simp [isMarkSeenEv, ih]

theorem filter_recorded_map_pub (l : List (Note × Response)) :
    ((l.map (fun o => CycleEvent.published o.1.uri o.2.text)).filter
      isRecordedEv) = [] := by
  induction l with
  | nil => rfl
  | cons a t ih => simp [isRecordedEv, ih]

theorem filter_markSeen_map_rec (rs : List Record) :
    ((rs.map CycleEvent.recorded).filter isMarkSeenEv) = [] := by
  induction rs with
  | nil => rfl
  | cons a t ih => simp [isMarkSeenEv, ih]

theorem processBatch_no_markSeen (benv : BotEnv) (senv : SandboxEnv) :
    ∀ notes : List Note,
      ((processBatch benv senv notes).trace).filter isMarkSeenEv = []
  | [] => rfl
  | n :: rest => by
    simp only [processBatch, List.filter_append,
      processBatch_no_markSeen benv senv rest, List.append_nil,
      processNotification_no_markSeen, filter_markSeen_map_rec,
      List.nil_append]
    simp [isMarkSeenEv]

/-! ### Claim C6 -/

/-- C6: in every cycle, the trace starts with the timestamp capture followed
by the notification listing; the mark-seen call carries exactly that
previously-captured timestamp; mark-seen happens exactly once when the
filtered batch is non-empty (as the final step, after all processing) and
never when the filtered batch is empty. -/
theorem c6_mark_seen (benv : BotEnv) (senv : SandboxEnv) (raw : List Note) :
    (handleClientOps benv senv raw).trace.head?
        = some (CycleEvent.getTime benv.currentTime) ∧
    (handleClientOps benv senv raw).trace.get? 1 = some CycleEvent.listed ∧
    ((handleClientOps benv senv raw).trace.filter isMarkSeenEv
      = if (filterNotifications raw).1.isEmpty then []
        else [CycleEvent.markSeen benv.currentTime]) ∧
    ((filterNotifications raw).1.isEmpty = false →
      (handleClientOps benv senv raw).trace.getLast?
        = some (CycleEvent.markSeen benv.currentTime)) := by
  refine ⟨by simp [handleClientOps], by simp [handleClientOps], ?_, ?_⟩
  · cases hempty : (filterNotifications raw).1.isEmpty with
    | true =>
      rcases hbs : senv.batchSandbox with _ | sb <;>
        simp [handleClientOps, hempty, hbs, List.filter_append,
          filter_markSeen_map_pub, processBatch_no_markSeen, isMarkSeenEv]
    | false =>
      rcases hbs : senv.batchSandbox with _ | sb <;>
        simp [handleClientOps, hempty, hbs, List.filter_append,
          filter_markSeen_map_pub, processBatch_no_markSeen, isMarkSeenEv]
  · intro hne
    simp only [handleClientOps, hne, Bool.false_eq_true, if_false]
    exact List.getLast?_concat _

/-- C6 witness: a cycle with one processed notification ends with the
mark-seen call carrying the pre-listing timestamp. -/
theorem c6_witness :
    (handleClientOps benv0 senv0 [goodNote]).trace.getLast?
      = some (CycleEvent.markSeen "2024-01-01T00:00:00Z") :=
  (c6_mark_seen benv0 senv0 [goodNote]).2.2.2 (by decide)

/-! ### Claim C9 -/

theorem rateLimitAux_overflow_const :
    ∀ (notes : List Note) (seen : List String),
      ((rateLimitAux seen notes).2).map Prod.snd
        = List.replicate (rateLimitAux seen notes).2.length overflowResponse := by
  intro notes
  induction notes with
  | nil => intro seen; rfl
  | cons n rest ih =>
    intro seen
    by_cases hmem : n.author.handle ∈ seen <;>
      simp [rateLimitAux, hmem, ih, List.replicate_succ]

/-- C9: on the overflow path the audit store is untouched: the cycle's
records are exactly those produced by per-item processing of the forwarded
notes; every rejected notification receives exactly one overflow reply,
which is published immediately during filtering — the trace segment up to
and including the overflow publishes (right after timestamp capture and
listing, before any batch-phase event) contains no audit-record event. -/
theorem c9_overflow_no_record (benv : BotEnv) (senv : SandboxEnv)
    (raw : List Note) :
    (handleClientOps benv senv raw).records
      = (processBatch benv senv (filterNotifications raw).1).records ∧
    ((filterNotifications raw).2.map Prod.snd)
      = List.replicate (filterNotifications raw).2.length overflowResponse ∧
    ((handleClientOps benv senv raw).trace.take
        (2 + (filterNotifications raw).2.length)
      = CycleEvent.getTime benv.currentTime :: CycleEvent.listed ::
          (filterNotifications raw).2.map
            (fun o => CycleEvent.published o.1.uri o.2.text)) ∧
    (((handleClientOps benv senv raw).trace.take
        (2 + (filterNotifications raw).2.length)).filter isRecordedEv
      = []) := by
  have htake : (handleClientOps benv senv raw).trace.take
      (2 + (filterNotifications raw).2.length)
      = CycleEvent.getTime benv.currentTime :: CycleEvent.listed ::
          (filterNotifications raw).2.map
            (fun o => CycleEvent.published o.1.uri o.2.text) := by
    simp only [handleClientOps, List.append_assoc, List.cons_append,
      List.nil_append]
    rw [Nat.add_comm 2 (filterNotifications raw).2.length]
    simp only [List.take_succ_cons]
    rw [← List.length_map (filterNotifications raw).2
        (fun o => CycleEvent.published o.1.uri o.2.text),
      List.take_left]
  refine ⟨rfl, rateLimitAux_overflow_const (contentFilter raw) [], htake, ?_⟩
  rw [htake]
  simp [isRecordedEv, filter_recorded_map_pub]

end Codebot
